import Mathlib

/-!
Verification of the in-memory shopping cart module (src/cart.ts).

The module keeps a list of line items (`cart`) and a scalar discount
rate (`discount`), and exposes six operations: addProduct, removeProduct,
getProductCount, getTotal, applyDiscount, resetCart.

Shallow embedding conventions:
* JavaScript numbers are modelled as exact rationals.
* A candidate passed to addProduct is a record of raw JavaScript values,
  so that the zod schema checks (wrong type, negative price, non-integer
  or non-positive quantity) are expressible.
* Mutating operations are state transformers on `CartState`; the fallible
  ones return `Except CartError CartState`.  A thrown exception produces
  no successor state, so the caller retains the pre-call state: failure
  leaves the cart exactly as it was.
* Queries are pure functions of the state, which captures that they do
  not mutate the cart.  The diagnostic console.log inside getTotal is a
  non-contractual side channel and is not modelled.
-/

namespace CartModule

/-- A JavaScript runtime value, as far as the cart module inspects one. -/
inductive JSValue where
  | str (s : String)
  | num (q : ℚ)
  | boolean (b : Bool)
  | nullv
  deriving DecidableEq, Repr

/-- A candidate line item handed to addProduct, before validation:
each field is a raw JavaScript value. -/
structure RawProduct where
  id : JSValue
  name : JSValue
  price : JSValue
  quantity : JSValue
  deriving DecidableEq, Repr

/-- A validated line item as stored in the cart (the `Product` type of
src/cart.ts). -/
structure Product where
  id : String
  name : String
  price : ℚ
  quantity : ℚ
  deriving DecidableEq, Repr

/-- `ProductSchema.parse` of src/cart.ts (zod): id and name must be
strings, price a number with `nonnegative()`, quantity a number with
`int()` and `positive()`.  Returns the parsed product, or `none` when
validation throws. -/
def ProductSchema.parse (c : RawProduct) : Option Product :=
  match c.id, c.name, c.price, c.quantity with
  | .str i, .str n, .num pr, .num q =>
      if 0 ≤ pr ∧ q.den = 1 ∧ 0 < q then some ⟨i, n, pr, q⟩ else none
  | _, _, _, _ => none

/-- The module-level mutable state of src/cart.ts: the `cart` array and
the `discount` rate. -/
structure CartState where
  cart : List Product
  discount : ℚ
  deriving DecidableEq, Repr

/-- The state at module load: `cart = []`, `discount = 0`. -/
def initialState : CartState := ⟨[], 0⟩

/-- The two error kinds the module can throw. -/
inductive CartError where
  | validationError
  | invalidPromoCode
  deriving DecidableEq, Repr

/-- The effect of `cart.find(...)` followed by the in-place quantity
update, or `cart.push({...product})` when no entry matches: the first
stored item with the same id gets its quantity incremented, otherwise
the item is appended at the end. -/
def addToCart (p : Product) : List Product → List Product
  | [] => [p]
  | q :: rest =>
      if q.id = p.id then { q with quantity := q.quantity + p.quantity } :: rest
      else q :: addToCart p rest

/-- `addProduct` of src/cart.ts: validate with ProductSchema, then merge
into an existing entry with the same id or append a copy. -/
def addProduct (product : RawProduct) (s : CartState) : Except CartError CartState :=
  match ProductSchema.parse product with
  | none => .error .validationError
  | some p => .ok { s with cart := addToCart p s.cart }

/-- `removeProduct` of src/cart.ts: `cart = cart.filter((p) => p.id !== productId)`. -/
def removeProduct (productId : String) (s : CartState) : CartState :=
  { s with cart := s.cart.filter (fun p => p.id ≠ productId) }

/-- `getProductCount` of src/cart.ts:
`cart.reduce((acc, p) => acc + p.quantity, 0)`. -/
def getProductCount (s : CartState) : ℚ :=
  s.cart.foldl (fun acc p => acc + p.quantity) 0

/-- `getTotal` of src/cart.ts:
`cart.reduce((acc, p) => acc + p.price * p.quantity, 0) * (1 - discount)`. -/
def getTotal (s : CartState) : ℚ :=
  (s.cart.foldl (fun acc p => acc + p.price * p.quantity) 0) * (1 - s.discount)

/-- `applyDiscount` of src/cart.ts: `"PROMO10"` sets the discount to 0.1,
any other code throws. -/
def applyDiscount (code : String) (s : CartState) : Except CartError CartState :=
  if code = "PROMO10" then .ok { s with discount := 1/10 }
  else .error .invalidPromoCode

/-- `resetCart` of src/cart.ts: `cart = []; discount = 0`. -/
def resetCart (_s : CartState) : CartState := ⟨[], 0⟩

/-- A single exposed mutating operation taking the state `s` to `s'`
(queries do not change the state). -/
inductive Step : CartState → CartState → Prop where
  | add (c : RawProduct) (s s' : CartState) : addProduct c s = .ok s' → Step s s'
  | remove (productId : String) (s : CartState) : Step s (removeProduct productId s)
  | promo (code : String) (s s' : CartState) : applyDiscount code s = .ok s' → Step s s'
  | reset (s : CartState) : Step s (resetCart s)

/-- States reachable from the initial empty cart through the exposed
operations. -/
inductive Reachable : CartState → Prop where
  | init : Reachable initialState
  | step {s s' : CartState} : Reachable s → Step s s' → Reachable s'

/-- A left fold that adds `f` of each element is the sum of the mapped list. -/
theorem foldl_add_eq_sum (f : Product → ℚ) (l : List Product) (a : ℚ) :
    l.foldl (fun acc p => acc + f p) a = a + (l.map f).sum := by
  induction l generalizing a with
  | nil => simp
  | cons p rest ih => simp [ih, add_assoc]

/-- Claim C1: for every cart state, getTotal returns the sum over stored
items of price times quantity, scaled by one minus the discount rate; on
an empty items list it returns 0 whatever the discount rate is.  (getTotal
is a pure function of the state in this embedding, mirroring that the
source only reads the globals.) -/
theorem getTotal_spec (s : CartState) :
    getTotal s = (s.cart.map (fun p => p.price * p.quantity)).sum * (1 - s.discount) ∧
    (s.cart = [] → getTotal s = 0) := by
  constructor
  · unfold getTotal
    rw [foldl_add_eq_sum]
    ring
  · intro h
    simp [getTotal, h]

/-- Witness for C1 at a concrete state: an empty cart with a nonzero
discount rate has total 0. -/
theorem getTotal_spec_witness : getTotal ⟨[], 1/2⟩ = 0 :=
  (getTotal_spec ⟨[], 1/2⟩).2 rfl

/-- Inversion of the zod schema: parsing succeeds with product `p`
exactly when every raw field has the required shape and value. -/
theorem parse_some_iff (c : RawProduct) (p : Product) :
    ProductSchema.parse c = some p ↔
      c.id = .str p.id ∧ c.name = .str p.name ∧ c.price = .num p.price ∧
      c.quantity = .num p.quantity ∧ 0 ≤ p.price ∧ p.quantity.den = 1 ∧
      0 < p.quantity := by
  obtain ⟨cid, cname, cprice, cqty⟩ := c
  obtain ⟨pid, pname, pprice, pqty⟩ := p
  cases cid <;> cases cname <;> cases cprice <;> cases cqty <;>
    simp only [ProductSchema.parse, reduceCtorEq, false_and, and_false,
      JSValue.str.injEq, JSValue.num.injEq, Option.some.injEq, Product.mk.injEq] <;>
    try exact Iff.rfl
  constructor
  · intro hp
    split_ifs at hp with hcond
    cases hp
    exact ⟨rfl, rfl, rfl, rfl, hcond.1, hcond.2.1, hcond.2.2⟩
  · rintro ⟨rfl, rfl, rfl, rfl, h5, h6, h7⟩
    rw [if_pos ⟨h5, h6, h7⟩]

/-- Claim C3: applyDiscount with "PROMO10" sets the discount rate to
exactly 1/10, overwriting whatever rate was set before; any other code
fails with the invalid-promo-code error and (the call producing no
successor state) leaves the cart state exactly as before. -/
theorem applyDiscount_spec (code : String) (s : CartState) :
    (code = "PROMO10" → applyDiscount code s = .ok { s with discount := 1/10 }) ∧
    (code ≠ "PROMO10" → applyDiscount code s = .error .invalidPromoCode) := by
  constructor
  · intro h
    simp [applyDiscount, h]
  · intro h
    simp [applyDiscount, h]

/-- Witness for C3: "PROMO10" overwrites a prior rate of 1/2 with 1/10,
and "INVALIDE" is rejected. -/
theorem applyDiscount_spec_witness :
    applyDiscount "PROMO10" ⟨[], 1/2⟩ = .ok ⟨[], 1/10⟩ ∧
    applyDiscount "INVALIDE" ⟨[], 1/2⟩ = .error .invalidPromoCode :=
  ⟨(applyDiscount_spec "PROMO10" ⟨[], 1/2⟩).1 rfl,
   (applyDiscount_spec "INVALIDE" ⟨[], 1/2⟩).2 (by decide)⟩

/-- Claim C8: resetCart succeeds on every state (it is a total function
with no error case), leaves the items empty and the discount rate 0, so
the queries return the empty-cart defaults: count 0 and total 0. -/
theorem resetCart_spec (s : CartState) :
    resetCart s = ⟨[], 0⟩ ∧ (resetCart s).cart = [] ∧ (resetCart s).discount = 0 ∧
    getProductCount (resetCart s) = 0 ∧ getTotal (resetCart s) = 0 := by
  refine ⟨rfl, rfl, rfl, rfl, ?_⟩
  simp [getTotal, resetCart]

/-- Claim C10: applyDiscount never changes the stored items: on success
the items list, and hence getProductCount, is exactly what it was before
the call (on failure no successor state is produced, so the pre-call
state, items included, is retained). -/
theorem applyDiscount_frame (code : String) (s s' : CartState)
    (h : applyDiscount code s = .ok s') :
    s'.cart = s.cart ∧ getProductCount s' = getProductCount s := by
  unfold applyDiscount at h
  split at h
  · cases h
    exact ⟨rfl, rfl⟩
  · cases h

/-- Witness for C10: applying "PROMO10" on a one-item cart keeps the
items and the count. -/
theorem applyDiscount_frame_witness :
    (⟨[⟨"1", "Item", 100, 1⟩], 1/10⟩ : CartState).cart =
      (⟨[⟨"1", "Item", 100, 1⟩], 0⟩ : CartState).cart ∧
    getProductCount ⟨[⟨"1", "Item", 100, 1⟩], 1/10⟩ =
      getProductCount ⟨[⟨"1", "Item", 100, 1⟩], 0⟩ :=
  applyDiscount_frame "PROMO10" ⟨[⟨"1", "Item", 100, 1⟩], 0⟩
    ⟨[⟨"1", "Item", 100, 1⟩], 1/10⟩ rfl

/-- Claim C2: a candidate that violates any schema constraint (id or
name not a string, price not a number or negative, quantity not a number
or not a positive integer) makes addProduct fail with the validation
error; the failure happens before any mutation, so no successor state is
produced and the cart is exactly as before the call. -/
theorem addProduct_invalid_spec (c : RawProduct) (s : CartState)
    (h : (∀ t, c.id ≠ .str t) ∨ (∀ t, c.name ≠ .str t) ∨
         (∀ q, c.price ≠ .num q) ∨ (∃ q, c.price = .num q ∧ q < 0) ∨
         (∀ q, c.quantity ≠ .num q) ∨
         (∃ q, c.quantity = .num q ∧ ¬(q.den = 1 ∧ 0 < q))) :
    addProduct c s = .error .validationError := by
  rcases hp : ProductSchema.parse c with _ | p
  · simp [addProduct, hp]
  · exfalso
    rw [parse_some_iff] at hp
    obtain ⟨h1, h2, h3, h4, h5, h6, h7⟩ := hp
    rcases h with h | h | h | ⟨q, hq, hlt⟩ | h | ⟨q, hq, hnot⟩
    · exact h _ h1
    · exact h _ h2
    · exact h _ h3
    · rw [h3] at hq
      cases JSValue.num.inj hq
      exact absurd h5 (not_le.mpr hlt)
    · exact h _ h4
    · rw [h4] at hq
      cases JSValue.num.inj hq
      exact hnot ⟨h6, h7⟩

/-- Witness for C2: the bad product of the test suite (negative price,
zero quantity) is rejected on the empty cart. -/
theorem addProduct_invalid_spec_witness :
    addProduct ⟨.str "1", .str "Bad", .num (-5), .num 0⟩ initialState =
      .error .validationError :=
  addProduct_invalid_spec _ _
    (Or.inr (Or.inr (Or.inr (Or.inl ⟨-5, rfl, by norm_num⟩))))

/-- Claim C7: removeProduct removes the stored line item whose id
matches when one is present; on a miss it leaves the state exactly
unchanged, so count and total are unchanged; and it is idempotent. -/
theorem removeProduct_spec (productId : String) (s : CartState) :
    ((∀ p ∈ s.cart, p.id ≠ productId) →
        removeProduct productId s = s ∧
        getProductCount (removeProduct productId s) = getProductCount s ∧
        getTotal (removeProduct productId s) = getTotal s) ∧
    (∀ l₁ q l₂, s.cart = l₁ ++ q :: l₂ → q.id = productId →
        (∀ r ∈ l₁ ++ l₂, r.id ≠ productId) →
        (removeProduct productId s).cart = l₁ ++ l₂) ∧
    removeProduct productId (removeProduct productId s) = removeProduct productId s := by
  refine ⟨?_, ?_, ?_⟩
  · intro h
    have hfe : s.cart.filter (fun p => p.id ≠ productId) = s.cart :=
      List.filter_eq_self.mpr (fun a ha => by simpa using h a ha)
    obtain ⟨l, d⟩ := s
    simp only [removeProduct] at hfe ⊢
    rw [hfe]
    exact ⟨rfl, rfl, rfl⟩
  · intro l₁ q l₂ hcart hq hrest
    have h₁ : l₁.filter (fun p => decide (p.id ≠ productId)) = l₁ :=
      List.filter_eq_self.mpr
        (fun a ha => by simpa using hrest a (List.mem_append_left l₂ ha))
    have h₂ : l₂.filter (fun p => decide (p.id ≠ productId)) = l₂ :=
      List.filter_eq_self.mpr
        (fun a ha => by simpa using hrest a (List.mem_append_right l₁ ha))
    simp only [removeProduct, hcart, List.filter_append, List.filter_cons]
    rw [if_neg (by simp [hq])]
    rw [h₁, h₂]
  · obtain ⟨l, d⟩ := s
    simp only [removeProduct, List.filter_filter]
    congr 1
    apply List.filter_congr
    intro a _
    exact Bool.and_self _

/-- Witness for C7: removing an absent id from a one-item cart is the
identity, as in the miss test of the suite. -/
theorem removeProduct_spec_witness :
    removeProduct "not-found" ⟨[⟨"1", "T-shirt", 20, 1⟩], 0⟩ =
      ⟨[⟨"1", "T-shirt", 20, 1⟩], 0⟩ :=
  ((removeProduct_spec "not-found" ⟨[⟨"1", "T-shirt", 20, 1⟩], 0⟩).1 (by decide)).1

/-- When no stored item shares the id, the find loop misses and the item
is appended at the end. -/
theorem addToCart_of_not_mem (p : Product) (l : List Product)
    (h : ∀ q ∈ l, q.id ≠ p.id) : addToCart p l = l ++ [p] := by
  induction l with
  | nil => rfl
  | cons q rest ih =>
      have hq : ¬q.id = p.id := h q (List.mem_cons_self q rest)
      simp only [addToCart, if_neg hq]
      rw [ih (fun r hr => h r (List.mem_cons_of_mem q hr))]
      simp

/-- When the first stored item with the same id sits at the split point,
the find loop stops there and bumps the quantity of exactly that item. -/
theorem addToCart_of_mem (p : Product) (l₁ : List Product) (q : Product)
    (l₂ : List Product) (h₁ : ∀ r ∈ l₁, r.id ≠ p.id) (hq : q.id = p.id) :
    addToCart p (l₁ ++ q :: l₂) =
      l₁ ++ { q with quantity := q.quantity + p.quantity } :: l₂ := by
  induction l₁ with
  | nil => simp only [List.nil_append, addToCart, if_pos hq]
  | cons r rest ih =>
      have hr : ¬r.id = p.id := h₁ r (List.mem_cons_self r rest)
      simp only [List.cons_append, addToCart, if_neg hr, List.append_eq]
      rw [ih (fun x hx => h₁ x (List.mem_cons_of_mem r hx))]

/-- Claim C4: for a valid candidate parsing to `p`, addProduct merges
into the first stored item with the same id, adding the incoming
quantity while keeping that item and every other item otherwise
unchanged (the incoming price and name are ignored); when no stored item
shares the id, the parsed item is appended at the end. -/
theorem addProduct_valid_spec (c : RawProduct) (s : CartState) (p : Product)
    (hp : ProductSchema.parse c = some p) :
    ((∀ q ∈ s.cart, q.id ≠ p.id) →
        addProduct c s = .ok { s with cart := s.cart ++ [p] }) ∧
    (∀ l₁ q l₂, s.cart = l₁ ++ q :: l₂ → (∀ r ∈ l₁, r.id ≠ p.id) → q.id = p.id →
        addProduct c s = .ok { s with cart :=
          l₁ ++ { q with quantity := q.quantity + p.quantity } :: l₂ }) := by
  constructor
  · intro h
    simp only [addProduct, hp]
    rw [addToCart_of_not_mem p s.cart h]
  · intro l₁ q l₂ hcart h₁ hq
    simp only [addProduct, hp]
    rw [hcart, addToCart_of_mem p l₁ q l₂ h₁ hq]

/-- Witness for C4: adding the T-shirt a second time merges into the
single stored entry, doubling its quantity. -/
theorem addProduct_valid_spec_witness :
    addProduct ⟨.str "1", .str "T-shirt", .num 20, .num 1⟩
        ⟨[⟨"1", "T-shirt", 20, 1⟩], 0⟩ =
      .ok ⟨[⟨"1", "T-shirt", 20, 1 + 1⟩], 0⟩ :=
  (addProduct_valid_spec ⟨.str "1", .str "T-shirt", .num 20, .num 1⟩
      ⟨[⟨"1", "T-shirt", 20, 1⟩], 0⟩ ⟨"1", "T-shirt", 20, 1⟩ rfl).2
    [] ⟨"1", "T-shirt", 20, 1⟩ [] rfl (by simp) rfl

/-- Running a sequence of addProduct calls in order; a failing call
throws, which aborts the remaining calls. -/
def runAdds : List RawProduct → CartState → Except CartError CartState
  | [], s => .ok s
  | c :: cs, s => (addProduct c s).bind (runAdds cs)

/-- getProductCount as the sum of the stored quantities. -/
theorem getProductCount_eq_sum (s : CartState) :
    getProductCount s = (s.cart.map (fun p => p.quantity)).sum := by
  unfold getProductCount
  rw [foldl_add_eq_sum]
  simp

/-- Merging an item into the cart list adds its quantity to the sum of
stored quantities. -/
theorem sum_addToCart (p : Product) (l : List Product) :
    ((addToCart p l).map (fun r => r.quantity)).sum =
      (l.map (fun r => r.quantity)).sum + p.quantity := by
  induction l with
  | nil => simp [addToCart]
  | cons q rest ih =>
      by_cases hq : q.id = p.id
      · simp only [addToCart, if_pos hq, List.map_cons, List.sum_cons]
        ring
      · simp only [addToCart, if_neg hq, List.map_cons, List.sum_cons, ih]
        ring

/-- A successful sequence of adds increases the count by the sum of the
parsed quantities. -/
theorem runAdds_count (cs : List RawProduct) (ps : List Product)
    (h : cs.mapM ProductSchema.parse = some ps) (s : CartState) :
    ∃ s', runAdds cs s = .ok s' ∧
      getProductCount s' =
        getProductCount s + (ps.map (fun p => p.quantity)).sum := by
  induction cs generalizing ps s with
  | nil =>
      simp only [List.mapM_nil, pure, Option.some.injEq] at h
      subst h
      exact ⟨s, rfl, by simp⟩
  | cons c cs ih =>
      rcases hc : ProductSchema.parse c with _ | p
      · rw [List.mapM_cons, hc] at h
        simp at h
      · rcases hcs : cs.mapM ProductSchema.parse with _ | ps'
        · rw [List.mapM_cons, hc, hcs] at h
          simp at h
        · rw [List.mapM_cons, hc, hcs] at h
          simp only [Option.bind_eq_bind, Option.some_bind, Option.some.injEq, pure] at h
          subst h
          obtain ⟨s', h1, h2⟩ := ih ps' hcs { s with cart := addToCart p s.cart }
          refine ⟨s', ?_, ?_⟩
          · simp only [runAdds, addProduct, hc, Except.bind]
            exact h1
          · rw [h2, getProductCount_eq_sum, getProductCount_eq_sum, sum_addToCart]
            simp only [List.map_cons, List.sum_cons]
            ring

/-- Claim C5: starting from the empty cart, every sequence of valid
addProduct calls succeeds and leaves getProductCount equal to the sum of
all provided quantities (quantities of repeated ids are summed, not
overwritten); getProductCount is the sum of the stored quantities, is 0
on the empty cart, and, being a pure function of the state in this
embedding, does not mutate the cart. -/
theorem getProductCount_spec (cs : List RawProduct) (ps : List Product)
    (h : cs.mapM ProductSchema.parse = some ps) :
    (∃ s, runAdds cs initialState = .ok s ∧
        getProductCount s = (ps.map (fun p => p.quantity)).sum) ∧
    (∀ s, getProductCount s = (s.cart.map (fun p => p.quantity)).sum) ∧
    getProductCount initialState = 0 := by
  refine ⟨?_, getProductCount_eq_sum, rfl⟩
  obtain ⟨s', h1, h2⟩ := runAdds_count cs ps h initialState
  refine ⟨s', h1, ?_⟩
  rw [h2]
  simp [getProductCount, initialState]

/-- Witness for C5: adding the T-shirt twice with quantity 1 each time
gives a state whose count is the sum of the two provided quantities. -/
theorem getProductCount_spec_witness :
    (∃ s, runAdds [⟨.str "1", .str "T-shirt", .num 20, .num 1⟩,
                   ⟨.str "1", .str "T-shirt", .num 20, .num 1⟩] initialState = .ok s ∧
        getProductCount s =
          (([⟨"1", "T-shirt", 20, 1⟩, ⟨"1", "T-shirt", 20, 1⟩] : List Product).map
            (fun p => p.quantity)).sum) ∧
    (∀ s, getProductCount s = (s.cart.map (fun p => p.quantity)).sum) ∧
    getProductCount initialState = 0 :=
  getProductCount_spec
    [⟨.str "1", .str "T-shirt", .num 20, .num 1⟩,
     ⟨.str "1", .str "T-shirt", .num 20, .num 1⟩]
    [⟨"1", "T-shirt", 20, 1⟩, ⟨"1", "T-shirt", 20, 1⟩] rfl

/-- Inversion of a successful addProduct call: the candidate parsed and
the new state merges it into the items. -/
theorem addProduct_ok_inv (c : RawProduct) (s s' : CartState)
    (h : addProduct c s = .ok s') :
    ∃ p, ProductSchema.parse c = some p ∧
      s' = { s with cart := addToCart p s.cart } := by
  unfold addProduct at h
  rcases hp : ProductSchema.parse c with _ | p <;> rw [hp] at h
  · cases h
  · cases h
    exact ⟨p, rfl, rfl⟩

/-- Inversion of a successful applyDiscount call: the new state only
replaces the discount rate with 1/10. -/
theorem applyDiscount_ok_inv (code : String) (s s' : CartState)
    (h : applyDiscount code s = .ok s') :
    s' = { s with discount := 1/10 } := by
  unfold applyDiscount at h
  split at h
  · cases h
    rfl
  · cases h

/-- The sum of two rationals with denominator 1 has denominator 1. -/
theorem den_add_eq_one (a b : ℚ) (ha : a.den = 1) (hb : b.den = 1) :
    (a + b).den = 1 := by
  have ha' := Rat.coe_int_num_of_den_eq_one ha
  have hb' := Rat.coe_int_num_of_den_eq_one hb
  have hab : a + b = ((a.num + b.num : ℤ) : ℚ) := by
    push_cast
    rw [ha', hb']
  rw [hab]
  exact Rat.den_intCast _

/-- Every element of the merged list is the incoming item, an untouched
stored item, or a stored item with only its quantity bumped. -/
theorem mem_addToCart (p : Product) (l : List Product) (r : Product)
    (hr : r ∈ addToCart p l) :
    r = p ∨ r ∈ l ∨ ∃ q ∈ l, r = { q with quantity := q.quantity + p.quantity } := by
  induction l with
  | nil =>
      simp only [addToCart, List.mem_singleton] at hr
      exact Or.inl hr
  | cons q rest ih =>
      by_cases hq : q.id = p.id
      · simp only [addToCart, if_pos hq, List.mem_cons] at hr
        rcases hr with rfl | hr
        · exact Or.inr (Or.inr ⟨q, List.mem_cons_self q rest, rfl⟩)
        · exact Or.inr (Or.inl (List.mem_cons_of_mem q hr))
      · simp only [addToCart, if_neg hq, List.mem_cons] at hr
        rcases hr with rfl | hr
        · exact Or.inr (Or.inl (List.mem_cons_self r rest))
        · rcases ih hr with h | h | ⟨q', hq', h⟩
          · exact Or.inl h
          · exact Or.inr (Or.inl (List.mem_cons_of_mem q h))
          · exact Or.inr (Or.inr ⟨q', List.mem_cons_of_mem q hq', h⟩)

/-- Merging preserves pairwise-distinct ids. -/
theorem pairwise_addToCart (p : Product) (l : List Product)
    (h : l.Pairwise (fun a b => a.id ≠ b.id)) :
    (addToCart p l).Pairwise (fun a b => a.id ≠ b.id) := by
  induction l with
  | nil => simp [addToCart]
  | cons q rest ih =>
      rw [List.pairwise_cons] at h
      obtain ⟨hq, hrest⟩ := h
      by_cases hid : q.id = p.id
      · simp only [addToCart, if_pos hid]
        rw [List.pairwise_cons]
        exact ⟨fun r hr => hq r hr, hrest⟩
      · simp only [addToCart, if_neg hid]
        rw [List.pairwise_cons]
        refine ⟨?_, ih hrest⟩
        intro r hr
        rcases mem_addToCart p rest r hr with rfl | hmem | ⟨q', hq', rfl⟩
        · exact hid
        · exact hq r hmem
        · exact hq q' hq'

/-- Merging a positive-integer quantity preserves the positive-integer
quantity property of every stored item. -/
theorem quantity_addToCart (p : Product) (l : List Product)
    (hp : p.quantity.den = 1 ∧ 0 < p.quantity)
    (h : ∀ r ∈ l, r.quantity.den = 1 ∧ 0 < r.quantity) :
    ∀ r ∈ addToCart p l, r.quantity.den = 1 ∧ 0 < r.quantity := by
  intro r hr
  rcases mem_addToCart p l r hr with rfl | hmem | ⟨q', hq', rfl⟩
  · exact hp
  · exact h r hmem
  · obtain ⟨h1, h2⟩ := h q' hq'
    exact ⟨den_add_eq_one _ _ h1 hp.1, add_pos h2 hp.2⟩

/-- Claim C6: in every state reachable from the initial empty cart
through the exposed operations, the items hold at most one line item per
distinct id and every stored quantity is a positive integer. -/
theorem cart_invariant (s : CartState) (h : Reachable s) :
    s.cart.Pairwise (fun a b => a.id ≠ b.id) ∧
    ∀ p ∈ s.cart, p.quantity.den = 1 ∧ 0 < p.quantity := by
  induction h with
  | init => exact ⟨List.Pairwise.nil, by simp [initialState]⟩
  | step hr hstep ih =>
      obtain ⟨ih1, ih2⟩ := ih
      rename_i t t'
      cases hstep with
      | add c _ _ hok =>
          obtain ⟨p, hp, rfl⟩ := addProduct_ok_inv c t t' hok
          rw [parse_some_iff] at hp
          exact ⟨pairwise_addToCart p t.cart ih1,
            quantity_addToCart p t.cart ⟨hp.2.2.2.2.2.1, hp.2.2.2.2.2.2⟩ ih2⟩
      | remove productId _ =>
          refine ⟨List.Pairwise.sublist (List.filter_sublist t.cart) ih1, ?_⟩
          intro p hpmem
          exact ih2 p (List.mem_of_mem_filter hpmem)
      | promo code _ _ hok =>
          rw [applyDiscount_ok_inv code t t' hok]
          exact ⟨ih1, ih2⟩
      | reset _ =>
          exact ⟨List.Pairwise.nil, by simp [resetCart]⟩

/-- Witness for C6: the state after one add of the T-shirt with
quantity 2 is reachable and satisfies the invariant. -/
theorem cart_invariant_witness :
    (⟨[⟨"1", "T-shirt", 20, 2⟩], 0⟩ : CartState).cart.Pairwise
      (fun a b => a.id ≠ b.id) ∧
    ∀ p ∈ (⟨[⟨"1", "T-shirt", 20, 2⟩], 0⟩ : CartState).cart,
      p.quantity.den = 1 ∧ 0 < p.quantity :=
  cart_invariant ⟨[⟨"1", "T-shirt", 20, 2⟩], 0⟩
    (Reachable.step Reachable.init
      (Step.add ⟨.str "1", .str "T-shirt", .num 20, .num 2⟩ initialState _ rfl))

/-- Claim C9: in every state reachable from the initial state through
the exposed operations, the discount rate is exactly 0 or exactly 1/10:
it starts at 0, only applyDiscount can change it and then only to 1/10,
and resetCart returns it to 0. -/
theorem discount_invariant (s : CartState) (h : Reachable s) :
    s.discount = 0 ∨ s.discount = 1/10 := by
  induction h with
  | init => exact Or.inl rfl
  | step hr hstep ih =>
      rename_i t t'
      cases hstep with
      | add c _ _ hok =>
          obtain ⟨p, _, rfl⟩ := addProduct_ok_inv c t t' hok
          exact ih
      | remove productId _ => exact ih
      | promo code _ _ hok =>
          rw [applyDiscount_ok_inv code t t' hok]
          exact Or.inr rfl
      | reset _ => exact Or.inl rfl

/-- Witness for C9: the state reached by applying "PROMO10" to the
initial cart has discount rate 1/10. -/
theorem discount_invariant_witness :
    (⟨[], 1/10⟩ : CartState).discount = 0 ∨
    (⟨[], 1/10⟩ : CartState).discount = 1/10 :=
  discount_invariant ⟨[], 1/10⟩
    (Reachable.step Reachable.init (Step.promo "PROMO10" initialState _ rfl))

end CartModule
